import Mathlib

/-!
Verification of the FramePython CLI (`src/framepython.py`).

The tool keeps a JSON registry `.framepython.json` mapping aliases
(`.FILE`, `.FILE2`, …) to Python file names plus a dependency list, and
offers five actions: register, list, debug (run a registered file with
trace capture), compile (invoke a bundler) and help.

This file is a shallow embedding of that program.  Pure computations
(alias assignment, dependency parsing, JSON serialisation) become Lean
functions; effects (prints, the interactive prompt, subprocess calls,
the registry-file write, `sys.exit`) become an explicit event trace and
an outcome value; the ambient world (directory listing, stdin reply,
installed packages, behaviour of targets when run) is an `Env` record
threaded through the operations.
-/

namespace FramePython

/-- The registry persisted in `.framepython.json`: the insertion-ordered
`files` mapping (alias ↦ relative path, modelled as an association list
in insertion order, mirroring Python dict order) and the `dependencies`
list. -/
structure Registry where
  files : List (String × String)
  dependencies : List String
  deriving DecidableEq, Repr

/-- Observable events of one invocation, in order: `print` calls, the
`input(...)` prompt, `pip install` subprocess calls, `runpy.run_path`
executions, PyInstaller subprocess calls, the registry-file write, and
argparse's help output. -/
inductive Ev where
  | print (s : String)
  | prompt (msg : String)
  | pipInstall (dep : String)
  | runTarget (path : String)
  | pyinstaller (path : String)
  | writeReg (contents : String)
  | printHelp
  deriving DecidableEq, Repr

/-- How the process ends: returning normally (exit status 0), an explicit
`sys.exit code`, or dying on an uncaught exception (CPython then exits
with status 1). -/
inductive Outcome where
  | normal
  | exited (code : Nat)
  | crashed (msg : String)
  deriving DecidableEq, Repr

/-- The process exit status an `Outcome` produces: `sys.exit code` exits
with `code`, a normal return exits 0, and an uncaught exception makes
CPython exit 1. -/
def exitStatus : Outcome → Nat
  | Outcome.normal => 0
  | Outcome.exited code => code
  | Outcome.crashed _ => 1

/-- The ambient world of one invocation: contents of `.framepython.json`
if it exists, `os.listdir` per folder, the reply typed at the `input()`
prompt, the set of importable packages, the set of packages `pip
install` can install (exit status 0), and for each file path whether
running it raises (and with which formatted traceback). -/
structure Env where
  registryFile : Option String
  listing : String → List String
  stdinLine : String
  installed : List String
  pipSucceeds : List String
  runRaises : String → Option String

/-- Result of one top-level operation: its event trace, its outcome, and
the registry-file contents afterwards. -/
structure CmdResult where
  trace : List Ev
  outcome : Outcome
  registryFile : Option String
  deriving DecidableEq, Repr

/-! ### JSON serialisation (`json.dump(data, f, indent=2)` on the registry schema) -/

/-- `json.dump` escaping of one character, for the printable-ASCII
strings the theorems below restrict to: quote and backslash get a
backslash, everything else is emitted verbatim.  (Control and non-ASCII
characters, which `json.dump` turns into `\uXXXX` escapes, are outside
this model; `asciiSafe` marks the covered strings.) -/
def escapeChar (c : Char) : List Char :=
  if c = '"' ∨ c = '\\' then ['\\', c] else [c]

/-- Characters on which `escapeChar` agrees with `json.dump`'s escaping:
printable ASCII. -/
def asciiSafe (c : Char) : Bool := 32 ≤ c.toNat && c.toNat ≤ 126

/-- A string of printable-ASCII characters only. -/
def safeString (s : String) : Bool := s.data.all asciiSafe

/-- All strings stored in a registry are printable ASCII. -/
def safeRegistry (r : Registry) : Bool :=
  r.files.all (fun p => safeString p.1 && safeString p.2) &&
    r.dependencies.all safeString

/-- Serialised JSON string literal: quote, escaped body, quote. -/
def quoteStr (s : String) : List Char :=
  '"' :: s.data.flatMap escapeChar ++ ['"']

/-- One `"alias": "path"` member as `json.dump` renders it. -/
def dumpPair (p : String × String) : List Char :=
  quoteStr p.1 ++ (": ").data ++ quoteStr p.2

/-- Second and later members of the `files` object: each preceded by a
comma, newline and the 4-space indent `json.dump(…, indent=2)` uses at
depth 2. -/
def dumpPairsTail : List (String × String) → List Char
  | [] => []
  | p :: ps => (",\n    ").data ++ dumpPair p ++ dumpPairsTail ps

/-- The `files` object as `json.dump(…, indent=2)` renders it: `{}` when
empty, otherwise one member per line at 4-space indent, closed at
2-space indent. -/
def dumpFiles : List (String × String) → List Char
  | [] => ("\x7b\x7d").data
  | p :: ps => ("\x7b\n    ").data ++ dumpPair p ++ dumpPairsTail ps ++ ("\n  \x7d").data

/-- Second and later elements of the `dependencies` array. -/
def dumpDepsTail : List String → List Char
  | [] => []
  | d :: ds => (",\n    ").data ++ quoteStr d ++ dumpDepsTail ds

/-- The `dependencies` array as `json.dump(…, indent=2)` renders it. -/
def dumpDeps : List String → List Char
  | [] => ("[]").data
  | d :: ds => ("[\n    ").data ++ quoteStr d ++ dumpDepsTail ds ++ ("\n  ]").data

/-- The full document `json.dump({"files": …, "dependencies": …}, f,
indent=2)` writes: top-level object at indent 0, the two fixed keys in
the dict's insertion order. -/
def dumpRegistryChars (r : Registry) : List Char :=
  ("\x7b\n  \"files\": ").data ++ dumpFiles r.files ++
    (",\n  \"dependencies\": ").data ++ dumpDeps r.dependencies ++ ("\n\x7d").data

/-- `save_registry`'s file contents for a registry value. -/
def dumpRegistry (r : Registry) : String := String.mk (dumpRegistryChars r)

/-! ### JSON parsing (the fragment of `json.load` the registry uses)

`load_registry` feeds the file to `json.load`.  The parser below covers
the documents the tool itself writes — an object with a string-to-string
`files` object and a string-array `dependencies`, in that key order,
with arbitrary whitespace between tokens — and rejects everything else.
Object members are kept as parsed, in order (registry files written by
the tool have pairwise-distinct keys). -/

/-- JSON insignificant whitespace. -/
def isWsChar (c : Char) : Bool := c = ' ' || c = '\t' || c = '\n' || c = '\r'

/-- Skip insignificant whitespace. -/
def skipWs (l : List Char) : List Char := l.dropWhile isWsChar

/-- Parse the body of a string literal after its opening quote, undoing
`\"` and `\\` escapes, up to the closing quote; returns the decoded
characters and the rest of the input. -/
def parseStrBody : List Char → Option (List Char × List Char)
  | [] => none
  | c :: cs =>
    if c = '"' then some ([], cs)
    else if c = '\\' then
      match cs with
      | [] => none
      | e :: cs2 =>
        if e = '"' ∨ e = '\\' then
          match parseStrBody cs2 with
          | none => none
          | some (s, r) => some (e :: s, r)
        else none
    else
      match parseStrBody cs with
      | none => none
      | some (s, r) => some (c :: s, r)

/-- Parse a quoted string literal. -/
def parseQuoted : List Char → Option (String × List Char)
  | '"' :: cs =>
    match parseStrBody cs with
    | none => none
    | some (s, r) => some (String.mk s, r)
  | _ => none

/-- Require one specific character next. -/
def expectChar (c : Char) : List Char → Option (List Char)
  | x :: xs => if x = c then some xs else none
  | [] => none

/-- Parse one `"key": "value"` member (leading whitespace allowed around
each token). -/
def parsePair (l : List Char) : Option ((String × String) × List Char) :=
  match parseQuoted (skipWs l) with
  | none => none
  | some (k, l1) =>
    match expectChar ':' (skipWs l1) with
    | none => none
    | some l2 =>
      match parseQuoted (skipWs l2) with
      | none => none
      | some (v, l3) => some ((k, v), l3)

/-- After the first member of an object: repeatedly a comma and another
member, until the closing brace.  Fuel bounds the loop; callers pass
`input length + 1`, which lemma `parsePairsTail_spec` shows sufficient. -/
def parsePairsTail : Nat → List Char → Option (List (String × String) × List Char)
  | 0, _ => none
  | fuel + 1, l =>
    match skipWs l with
    | '\x7d' :: cs => some ([], cs)
    | ',' :: cs =>
      match parsePair cs with
      | none => none
      | some (p, l2) =>
        match parsePairsTail fuel l2 with
        | none => none
        | some (ps, l3) => some (p :: ps, l3)
    | _ => none

/-- Parse a string-to-string JSON object. -/
def parseObj (l : List Char) : Option (List (String × String) × List Char) :=
  match skipWs l with
  | '\x7b' :: cs =>
    match skipWs cs with
    | '\x7d' :: cs2 => some ([], cs2)
    | _ =>
      match parsePair cs with
      | none => none
      | some (p, l2) =>
        match parsePairsTail (l2.length + 1) l2 with
        | none => none
        | some (ps, l3) => some (p :: ps, l3)
  | _ => none

/-- After the first element of a string array: repeatedly a comma and
another string, until the closing bracket. -/
def parseStrsTail : Nat → List Char → Option (List String × List Char)
  | 0, _ => none
  | fuel + 1, l =>
    match skipWs l with
    | ']' :: cs => some ([], cs)
    | ',' :: cs =>
      match parseQuoted (skipWs cs) with
      | none => none
      | some (s, l2) =>
        match parseStrsTail fuel l2 with
        | none => none
        | some (ss, l3) => some (s :: ss, l3)
    | _ => none

/-- Parse a JSON array of strings. -/
def parseArr (l : List Char) : Option (List String × List Char) :=
  match skipWs l with
  | '[' :: cs =>
    match skipWs cs with
    | ']' :: cs2 => some ([], cs2)
    | _ =>
      match parseQuoted (skipWs cs) with
      | none => none
      | some (s, l2) =>
        match parseStrsTail (l2.length + 1) l2 with
        | none => none
        | some (ss, l3) => some (s :: ss, l3)
  | _ => none

/-- Parse a whole registry document: `{ "files": <object>,
"dependencies": <array> }` followed only by whitespace. -/
def parseRegistryChars (l : List Char) : Option Registry :=
  match expectChar '\x7b' (skipWs l) with
  | none => none
  | some l1 =>
    match parseQuoted (skipWs l1) with
    | none => none
    | some (k1, l2) =>
      if k1 ≠ "files" then none
      else
        match expectChar ':' (skipWs l2) with
        | none => none
        | some l3 =>
          match parseObj l3 with
          | none => none
          | some (fs, l4) =>
            match expectChar ',' (skipWs l4) with
            | none => none
            | some l5 =>
              match parseQuoted (skipWs l5) with
              | none => none
              | some (k2, l6) =>
                if k2 ≠ "dependencies" then none
                else
                  match expectChar ':' (skipWs l6) with
                  | none => none
                  | some l7 =>
                    match parseArr l7 with
                    | none => none
                    | some (ds, l8) =>
                      match expectChar '\x7d' (skipWs l8) with
                      | none => none
                      | some l9 =>
                        if (skipWs l9).isEmpty then some ⟨fs, ds⟩ else none

/-- `json.load` on a registry file. -/
def parseRegistry (s : String) : Option Registry := parseRegistryChars s.data

/-! ### Registry store (`load_registry` / `save_registry`) -/

/-- `load_registry`'s three possible fates: the parsed registry, the
missing-file path (message printed, `sys.exit(1)`), or `json.load`
raising on malformed contents (uncaught). -/
inductive LoadRes where
  | ok (r : Registry)
  | missing
  | badJson
  deriving DecidableEq, Repr

/-- The message printed when no registry file exists. -/
def missingMsg : String :=
  "[framepython] No project registered yet. Run --register first."

/-- `load_registry`: if `.framepython.json` does not exist, print the
missing message and `sys.exit(1)`; otherwise `json.load` it. -/
def load_registry : Option String → List Ev × LoadRes
  | none => ([Ev.print missingMsg], LoadRes.missing)
  | some s =>
    match parseRegistry s with
    | some r => ([], LoadRes.ok r)
    | none => ([], LoadRes.badJson)

/-! ### Helpers, dependency installer -/

/-- `normalize_folder`: the sentinel `"current"` means the working
directory. -/
def normalize_folder (folder : String) : String :=
  if folder = "current" then "." else folder

/-- `ensure_installed`: for each dependency in order, try to import it;
on failure print an installing message and run `pip install` as a
subprocess via `check_call`.  Returns the trace and, when some `pip`
exits non-zero, the dependency at which `check_call` raised (the loop
stops there; on success the package becomes importable). -/
def ensure_installed (installed pipOk : List String) : List String → List Ev × Option String
  | [] => ([], none)
  | dep :: deps =>
    if dep ∈ installed then ensure_installed installed pipOk deps
    else if dep ∈ pipOk then
      let rest := ensure_installed (dep :: installed) pipOk deps
      ([Ev.print ("[framepython] Installing " ++ dep ++ "..."), Ev.pipInstall dep] ++ rest.1,
        rest.2)
    else
      ([Ev.print ("[framepython] Installing " ++ dep ++ "..."), Ev.pipInstall dep], some dep)

/-! ### Registrar (`register`) -/

/-- The alias the `i`-th (0-based) listed `.py` file receives:
`.FILE` for the first, `.FILE{i+1}` after. -/
def aliasKey (i : Nat) : String :=
  if i = 0 then ".FILE" else ".FILE" ++ Nat.repr (i + 1)

/-- Python dict assignment `m[k] = v` on an insertion-ordered
association list: overwrite in place if the key exists, else append. -/
def dictInsert (m : List (String × String)) (k v : String) : List (String × String) :=
  if (m.lookup k).isSome then m.map (fun p => if p.1 = k then (k, v) else p)
  else m ++ [(k, v)]

/-- The `files` dict `register` builds: the loop
`for i, f in enumerate(py_files): registry["files"][key] = f`. -/
def buildFiles (py_files : List String) : List (String × String) :=
  py_files.enum.foldl (fun m p => dictInsert m (aliasKey p.1) p.2) []

/-- Python `str.split(",")`: cut the character list at every comma; `n`
commas give `n + 1` (possibly empty) pieces.  `cur` accumulates the
current piece in reverse. -/
def splitCommaAux (cur : List Char) : List Char → List (List Char)
  | [] => [cur.reverse]
  | c :: cs =>
    if c = ',' then cur.reverse :: splitCommaAux [] cs
    else splitCommaAux (c :: cur) cs

/-- Python `libs.split(",")`. -/
def pySplitComma (s : String) : List String :=
  (splitCommaAux [] s.data).map String.mk

/-- Python's `str.strip()` whitespace (the ASCII part): space, tab,
newline, carriage return, vertical tab, form feed. -/
def isPyWs (c : Char) : Bool :=
  c = ' ' || c = '\t' || c = '\n' || c = '\r' || c = '\x0b' || c = '\x0c'

/-- Python `lib.strip()`: drop whitespace from both ends. -/
def pyStrip (s : String) : String :=
  String.mk (((s.data.dropWhile isPyWs).reverse.dropWhile isPyWs).reverse)

/-- Python `f.endswith(suffix)`. -/
def pyEndsWith (f suffix : String) : Bool := suffix.data.isSuffixOf f.data

/-- Parsing of the interactive dependency reply:
`[lib.strip() for lib in libs.split(",") if lib.strip()]`. -/
def parseDeps (libs : String) : List String :=
  ((pySplitComma libs).map pyStrip).filter (fun s => s ≠ "")

/-- The prompt `register` shows. -/
def promptMsg : String := "Enter libraries (comma+space separated): "

/-- `register folder`: list the folder, keep names ending in `.py`,
assign aliases, prompt for dependencies, install them, then (only if
installation did not raise) overwrite the registry file. -/
def register (env : Env) (folder : String) : CmdResult :=
  let py_files := (env.listing (normalize_folder folder)).filter (fun f => pyEndsWith f ".py")
  let registry : Registry := ⟨buildFiles py_files, parseDeps env.stdinLine⟩
  let inst := ensure_installed env.installed env.pipSucceeds registry.dependencies
  match inst.2 with
  | some dep =>
    ⟨[Ev.prompt promptMsg] ++ inst.1,
      Outcome.crashed ("subprocess.CalledProcessError: pip install " ++ dep),
      env.registryFile⟩
  | none =>
    ⟨[Ev.prompt promptMsg] ++ inst.1 ++
        [Ev.writeReg (dumpRegistry registry), Ev.print "[framepython] Project registered!"],
      Outcome.normal,
      some (dumpRegistry registry)⟩

/-! ### List, Runner ("debug"), Packager ("compile") -/

/-- `list_files`: load the registry and print each alias and path. -/
def list_files (env : Env) : CmdResult :=
  match load_registry env.registryFile with
  | (evs, LoadRes.missing) => ⟨evs, Outcome.exited 1, env.registryFile⟩
  | (evs, LoadRes.badJson) =>
    ⟨evs, Outcome.crashed "json.JSONDecodeError", env.registryFile⟩
  | (evs, LoadRes.ok reg) =>
    ⟨evs ++ [Ev.print "[framepython] Registered files:"] ++
        reg.files.map (fun p => Ev.print ("  " ++ p.1 ++ " -> " ++ p.2)),
      Outcome.normal, env.registryFile⟩

/-- The message printed for an alias absent from the registry. -/
def notRegisteredMsg (dotfile : String) : String :=
  "[framepython] " ++ dotfile ++ " not registered."

/-- One iteration of debug's loop: the header print, the
`runpy.run_path(filepath, run_name="__main__")` call, and — when the
target raises — the traceback between its two banners. -/
def debugOne (runRaises : String → Option String) (dot filepath : String) : List Ev :=
  [Ev.print ("\n[framepython] Debugging " ++ dot ++ " (" ++ filepath ++ ")"),
    Ev.runTarget filepath] ++
    match runRaises filepath with
    | none => []
    | some tb =>
      [Ev.print "----- ERROR TRACEBACK -----", Ev.print tb,
        Ev.print "---------------------------"]

/-- Debug's loop over its target list. -/
def debugTargets (runRaises : String → Option String) (ts : List (String × String)) : List Ev :=
  ts.flatMap (fun p => debugOne runRaises p.1 p.2)

/-- `debug dotfile`: load the registry; a truthy (non-empty) alias
selects one target if registered (otherwise print `not registered` and
return); `None` — or, by Python truthiness, the empty string — selects
every registered file. -/
def debug (env : Env) (dotfile : Option String) : CmdResult :=
  match load_registry env.registryFile with
  | (evs, LoadRes.missing) => ⟨evs, Outcome.exited 1, env.registryFile⟩
  | (evs, LoadRes.badJson) =>
    ⟨evs, Outcome.crashed "json.JSONDecodeError", env.registryFile⟩
  | (evs, LoadRes.ok reg) =>
    match dotfile with
    | some d =>
      if d = "" then
        ⟨evs ++ debugTargets env.runRaises reg.files, Outcome.normal, env.registryFile⟩
      else
        match reg.files.lookup d with
        | none =>
          ⟨evs ++ [Ev.print (notRegisteredMsg d)], Outcome.normal, env.registryFile⟩
        | some fp =>
          ⟨evs ++ debugTargets env.runRaises [(d, fp)], Outcome.normal, env.registryFile⟩
    | none =>
      ⟨evs ++ debugTargets env.runRaises reg.files, Outcome.normal, env.registryFile⟩

/-- `compile_file dotfile`: load the registry; print `not registered`
and return if the alias is absent, else announce and run PyInstaller
(exit code never inspected). -/
def compile_file (env : Env) (dotfile : String) : CmdResult :=
  match load_registry env.registryFile with
  | (evs, LoadRes.missing) => ⟨evs, Outcome.exited 1, env.registryFile⟩
  | (evs, LoadRes.badJson) =>
    ⟨evs, Outcome.crashed "json.JSONDecodeError", env.registryFile⟩
  | (evs, LoadRes.ok reg) =>
    match reg.files.lookup dotfile with
    | none =>
      ⟨evs ++ [Ev.print (notRegisteredMsg dotfile)], Outcome.normal, env.registryFile⟩
    | some fp =>
      ⟨evs ++ [Ev.print ("[framepython] Compiling " ++ dotfile ++ " (" ++ fp ++ ")..."),
          Ev.pyinstaller fp], Outcome.normal, env.registryFile⟩

/-! ### CLI dispatcher (`main`) -/

/-- `argparse` results: `--register`/`--list` are `store_true`;
`--folder` and `--compile` hold a string or `None`; `--debug` with
`nargs="?"` and `const=True` is `None` (absent, modelled `none`), `True`
(bare flag, modelled `some none`) or the given alias (`some (some a)`). -/
structure Args where
  register : Bool
  folder : Option String
  list : Bool
  debug : Option (Option String)
  compile : Option String
  deriving DecidableEq, Repr

/-- Python truthiness of an optional string: `None` and `""` are falsy. -/
def truthyStr : Option String → Bool
  | none => false
  | some s => s ≠ ""

/-- Python truthiness of `args.debug`: `None` is falsy, `True` is
truthy, a string is truthy iff non-empty. -/
def truthyDebug : Option (Option String) → Bool
  | none => false
  | some none => true
  | some (some s) => s ≠ ""

/-- The five mutually exclusive actions of the dispatcher. -/
inductive Action where
  | registerAction
  | listAction
  | debugAction
  | compileAction
  | helpAction
  deriving DecidableEq, Repr

/-- Which branch of `main`'s `if/elif` chain fires: first-match priority
register, list, debug, compile, help, each guard being Python
truthiness of the corresponding attribute. -/
def chosenAction (a : Args) : Action :=
  if a.register then Action.registerAction
  else if a.list then Action.listAction
  else if truthyDebug a.debug then Action.debugAction
  else if truthyStr a.compile then Action.compileAction
  else Action.helpAction

/-- The usage line printed when `--register` lacks a (truthy) folder. -/
def registerUsageMsg : String := "Usage: framepython --register --folder current"

/-- `main` after argument parsing: the `if/elif` dispatch chain. -/
def main_dispatch (env : Env) (a : Args) : CmdResult :=
  if a.register then
    if truthyStr a.folder = false then
      ⟨[Ev.print registerUsageMsg], Outcome.normal, env.registryFile⟩
    else register env (a.folder.getD "")
  else if a.list then
    list_files env
  else if truthyDebug a.debug then
    match a.debug with
    | some none => debug env none
    | some (some s) => debug env (some s)
    | none => debug env none
  else if truthyStr a.compile then
    compile_file env (a.compile.getD "")
  else
    ⟨[Ev.printHelp], Outcome.normal, env.registryFile⟩

/-! ### Decimal rendering

`aliasKey` renders indices with `Nat.repr`; its injectivity (proved here
via a left inverse that re-evaluates the digit string) gives the
pairwise distinctness of the generated alias keys. -/

/-- Numeric value of a decimal digit character. -/
def digitVal (c : Char) : Nat := c.toNat - 48

/-- Value of a big-endian decimal digit string. -/
def evalDigits (l : List Char) : Nat := l.foldl (fun a c => 10 * a + digitVal c) 0

theorem toDigitsCore_acc (fuel : Nat) : ∀ (n : Nat) (ds : List Char),
    Nat.toDigitsCore 10 fuel n ds = Nat.toDigitsCore 10 fuel n [] ++ ds := by
  induction fuel with
  | zero => intro n ds; simp [Nat.toDigitsCore]
  | succ f ih =>
    intro n ds
    simp only [Nat.toDigitsCore]
    by_cases h : n / 10 = 0
    · simp [h]
    · simp only [if_neg h]
      rw [ih (n / 10) (Nat.digitChar (n % 10) :: ds), ih (n / 10) [Nat.digitChar (n % 10)]]
      simp

theorem toDigitsCore_fuel (f1 : Nat) : ∀ (f2 n : Nat), n < f1 → n < f2 →
    Nat.toDigitsCore 10 f1 n [] = Nat.toDigitsCore 10 f2 n [] := by
  induction f1 with
  | zero => omega
  | succ f ih =>
    intro f2 n h1 h2
    cases f2 with
    | zero => omega
    | succ g =>
      simp only [Nat.toDigitsCore]
      by_cases h : n / 10 = 0
      · simp [h]
      · simp only [if_neg h]
        rw [toDigitsCore_acc f, toDigitsCore_acc g]
        have hn : 0 < n := by
          rcases Nat.eq_zero_or_pos n with h0 | h0
          · subst h0; simp at h
          · exact h0
        have hd : n / 10 < n := Nat.div_lt_self hn (by norm_num)
        rw [ih g (n / 10) (by omega) (by omega)]

theorem toDigits_lt_ten (n : Nat) (h : n < 10) : Nat.toDigits 10 n = [Nat.digitChar n] := by
  have h10 : n / 10 = 0 := Nat.div_eq_of_lt h
  have hm : n % 10 = n := Nat.mod_eq_of_lt h
  simp [Nat.toDigits, Nat.toDigitsCore, h10, hm]

theorem toDigitsCore_step (f n : Nat) (h : n / 10 ≠ 0) :
    Nat.toDigitsCore 10 (f + 1) n [] = Nat.toDigitsCore 10 f (n / 10) [Nat.digitChar (n % 10)] := by
  simp only [Nat.toDigitsCore, if_neg h]

theorem toDigits_ge_ten (n : Nat) (h : 10 ≤ n) :
    Nat.toDigits 10 n = Nat.toDigits 10 (n / 10) ++ [Nat.digitChar (n % 10)] := by
  have hne : n / 10 ≠ 0 := by
    have : 1 ≤ n / 10 := (Nat.one_le_div_iff (by norm_num)).2 h
    omega
  have hd : n / 10 < n := Nat.div_lt_self (by omega) (by norm_num)
  rw [show Nat.toDigits 10 n = Nat.toDigitsCore 10 (n + 1) n [] from rfl,
    toDigitsCore_step n n hne, toDigitsCore_acc,
    toDigitsCore_fuel n (n / 10 + 1) (n / 10) (by omega) (by omega)]
  rfl

theorem digitVal_digitChar (d : Nat) (h : d < 10) : digitVal (Nat.digitChar d) = d := by
  interval_cases d <;> rfl

theorem evalDigits_append_digit (l : List Char) (c : Char) :
    evalDigits (l ++ [c]) = 10 * evalDigits l + digitVal c := by
  simp [evalDigits, List.foldl_append]

theorem evalDigits_toDigits (n : Nat) : evalDigits (Nat.toDigits 10 n) = n := by
  induction n using Nat.strong_induction_on with
  | _ n ih =>
    by_cases h : n < 10
    · rw [toDigits_lt_ten n h]
      simpa [evalDigits] using digitVal_digitChar n h
    · push_neg at h
      have hd : n / 10 < n := Nat.div_lt_self (by omega) (by norm_num)
      rw [toDigits_ge_ten n h, evalDigits_append_digit, ih (n / 10) hd,
        digitVal_digitChar _ (Nat.mod_lt n (by norm_num))]
      omega

theorem nat_repr_injective : Function.Injective Nat.repr := by
  intro m n h
  have hd : Nat.toDigits 10 m = Nat.toDigits 10 n := by
    have := congrArg String.data h
    simpa [Nat.repr, List.asString] using this
  have := congrArg evalDigits hd
  simpa [evalDigits_toDigits] using this

theorem toDigits_ne_nil (n : Nat) : Nat.toDigits 10 n ≠ [] := by
  by_cases h : n < 10
  · rw [toDigits_lt_ten n h]; simp
  · push_neg at h; rw [toDigits_ge_ten n h]; simp

theorem repr_ne_empty (n : Nat) : Nat.repr n ≠ "" := by
  intro h
  have := congrArg String.data h
  simp only [Nat.repr, List.asString] at this
  exact toDigits_ne_nil n this

theorem aliasKey_injective : Function.Injective aliasKey := by
  intro i j h
  unfold aliasKey at h
  by_cases hi : i = 0 <;> by_cases hj : j = 0
  · omega
  · exfalso
    rw [if_pos hi, if_neg hj] at h
    have hdata := congrArg String.data h
    simp only [String.data_append] at hdata
    have hlen := congrArg List.length hdata
    rw [List.length_append] at hlen
    have hz : (Nat.repr (j + 1)).data.length = 0 := by omega
    exact repr_ne_empty (j + 1) (String.ext (List.eq_nil_of_length_eq_zero hz))
  · exfalso
    rw [if_neg hi, if_pos hj] at h
    have hdata := congrArg String.data h
    simp only [String.data_append] at hdata
    have hlen := congrArg List.length hdata
    rw [List.length_append] at hlen
    have hz : (Nat.repr (i + 1)).data.length = 0 := by omega
    exact repr_ne_empty (i + 1) (String.ext (List.eq_nil_of_length_eq_zero hz))
  · rw [if_neg hi, if_neg hj] at h
    have hdata := congrArg String.data h
    simp only [String.data_append] at hdata
    have : Nat.repr (i + 1) = Nat.repr (j + 1) :=
      String.ext (List.append_cancel_left hdata)
    have := nat_repr_injective this
    omega

/-! ### The `files` dict built by `register` -/

theorem dictInsert_of_lookup_none (m : List (String × String)) (k v : String)
    (h : m.lookup k = none) : dictInsert m k v = m ++ [(k, v)] := by
  simp [dictInsert, h]

theorem foldl_dictInsert_eq (l : List (Nat × String)) (acc : List (String × String))
    (hnd : (l.map Prod.fst).Nodup)
    (hdisj : ∀ p ∈ l, acc.lookup (aliasKey p.1) = none) :
    l.foldl (fun m p => dictInsert m (aliasKey p.1) p.2) acc
      = acc ++ l.map (fun p => (aliasKey p.1, p.2)) := by
  induction l generalizing acc with
  | nil => simp
  | cons p l ih =>
    simp only [List.map_cons, List.nodup_cons] at hnd
    simp only [List.foldl_cons]
    rw [dictInsert_of_lookup_none acc (aliasKey p.1) p.2 (hdisj p (by simp))]
    rw [ih (acc ++ [(aliasKey p.1, p.2)]) hnd.2]
    · simp
    · intro q hq
      rw [List.lookup_append, hdisj q (by simp [hq]), Option.none_or]
      simp only [List.lookup_cons, List.lookup_nil]
      have hne : aliasKey q.1 ≠ aliasKey p.1 := by
        intro he
        exact hnd.1 (List.mem_map.2 ⟨q, hq, aliasKey_injective he⟩)
      simp [beq_eq_false_iff_ne.2 hne]

theorem buildFiles_eq (py : List String) :
    buildFiles py = py.enum.map (fun p => (aliasKey p.1, p.2)) := by
  have h := foldl_dictInsert_eq py.enum []
    (by rw [List.enum_map_fst]; exact List.nodup_range _)
    (by intro p _; simp)
  simpa [buildFiles] using h

theorem buildFiles_keys_nodup (py : List String) :
    ((buildFiles py).map Prod.fst).Nodup := by
  rw [buildFiles_eq]
  rw [List.map_map]
  have : (Prod.fst ∘ fun p : Nat × String => (aliasKey p.1, p.2))
      = aliasKey ∘ Prod.fst := rfl
  rw [this, ← List.map_map]
  exact (List.nodup_enum_map_fst py).map_on
    (fun a _ b _ h => aliasKey_injective h)

/-! ### `register` on success -/

/-- The registry value `register` builds before persisting it. -/
def registryOf (env : Env) (folder : String) : Registry :=
  ⟨buildFiles ((env.listing (normalize_folder folder)).filter (fun f => pyEndsWith f ".py")),
    parseDeps env.stdinLine⟩

theorem register_success (env : Env) (folder : String)
    (h : (ensure_installed env.installed env.pipSucceeds (parseDeps env.stdinLine)).2 = none) :
    register env folder =
      ⟨[Ev.prompt promptMsg] ++
          (ensure_installed env.installed env.pipSucceeds (parseDeps env.stdinLine)).1 ++
          [Ev.writeReg (dumpRegistry (registryOf env folder)),
            Ev.print "[framepython] Project registered!"],
        Outcome.normal, some (dumpRegistry (registryOf env folder))⟩ := by
  unfold register registryOf
  simp only []
  rw [h]

theorem register_install_failure (env : Env) (folder : String) (dep : String)
    (h : (ensure_installed env.installed env.pipSucceeds (parseDeps env.stdinLine)).2
      = some dep) :
    register env folder =
      ⟨[Ev.prompt promptMsg] ++
          (ensure_installed env.installed env.pipSucceeds (parseDeps env.stdinLine)).1,
        Outcome.crashed ("subprocess.CalledProcessError: pip install " ++ dep),
        env.registryFile⟩ := by
  unfold register
  simp only []
  rw [h]

/-- A concrete environment: no registry file yet, a folder listing with
three `.py` files among other entries, a dependency reply with blanks,
both named packages already importable, no target raising. -/
def envW : Env where
  registryFile := none
  listing := fun _ => ["main.py", "README.md", "util.py", "t.py"]
  stdinLine := "requests,  , numpy"
  installed := ["requests", "numpy"]
  pipSucceeds := []
  runRaises := fun _ => none

/-- C1: for a folder listing with `n` entries ending in `.py`,
`register` persists (via the registry-file write) a registry whose
`files` mapping has exactly `n` entries with pairwise-distinct keys,
the `i`-th (0-based) entry being keyed `.FILE` for `i = 0` and
`.FILE{i+1}` otherwise, paired with the `i`-th listed `.py` file, and
whose `dependencies` are the comma-split, whitespace-trimmed, non-empty
entries of the interactive input string.  (Stated under the hypothesis
that dependency installation does not raise: `register` only reaches
the write on that path.) -/
theorem register_registry_contents (env : Env) (folder : String)
    (hinstall :
      (ensure_installed env.installed env.pipSucceeds (parseDeps env.stdinLine)).2 = none) :
    ∃ r : Registry,
      (register env folder).registryFile = some (dumpRegistry r) ∧
      Ev.writeReg (dumpRegistry r) ∈ (register env folder).trace ∧
      r.files.length
        = ((env.listing (normalize_folder folder)).filter (fun f => pyEndsWith f ".py")).length ∧
      (r.files.map Prod.fst).Nodup ∧
      r.files
        = ((env.listing (normalize_folder folder)).filter (fun f => pyEndsWith f ".py")).enum.map
            (fun p => ((if p.1 = 0 then ".FILE" else ".FILE" ++ Nat.repr (p.1 + 1)), p.2)) ∧
      r.dependencies
        = ((pySplitComma env.stdinLine).map pyStrip).filter (fun s => s ≠ "") := by
  refine ⟨registryOf env folder, ?_, ?_, ?_, ?_, ?_, rfl⟩
  · rw [register_success env folder hinstall]
  · rw [register_success env folder hinstall]
    simp
  · unfold registryOf
    rw [buildFiles_eq]
    simp
  · exact buildFiles_keys_nodup _
  · unfold registryOf
    rw [buildFiles_eq]
    simp only [aliasKey]

/-- Witness for C1: the concrete environment `envW`, whose folder holds
`main.py`, `util.py`, `t.py` (and a `README.md` that is skipped) and
whose input parses to `["requests", "numpy"]`. -/
theorem register_registry_contents_witness :
    ∃ r : Registry,
      (register envW "current").registryFile = some (dumpRegistry r) ∧
      Ev.writeReg (dumpRegistry r) ∈ (register envW "current").trace ∧
      r.files.length
        = ((envW.listing (normalize_folder "current")).filter (fun f => pyEndsWith f ".py")).length ∧
      (r.files.map Prod.fst).Nodup ∧
      r.files
        = ((envW.listing (normalize_folder "current")).filter
            (fun f => pyEndsWith f ".py")).enum.map
            (fun p => ((if p.1 = 0 then ".FILE" else ".FILE" ++ Nat.repr (p.1 + 1)), p.2)) ∧
      r.dependencies
        = ((pySplitComma envW.stdinLine).map pyStrip).filter (fun s => s ≠ "") :=
  register_registry_contents envW "current" (by decide)

/-! ### Runner ("debug") lemmas -/

/-- Recognises `runpy.run_path` events. -/
def isRunEv : Ev → Bool
  | Ev.runTarget _ => true
  | _ => false

theorem debugOne_filter_run (rr : String → Option String) (dot fp : String) :
    (debugOne rr dot fp).filter isRunEv = [Ev.runTarget fp] := by
  cases h : rr fp <;> simp [debugOne, isRunEv, h]

theorem debugTargets_filter_run (rr : String → Option String) (ts : List (String × String)) :
    (debugTargets rr ts).filter isRunEv = ts.map (fun p => Ev.runTarget p.2) := by
  induction ts with
  | nil => simp [debugTargets]
  | cons p ts ih =>
    simp [debugTargets, List.filter_append, debugOne_filter_run,
      ← ih]

theorem load_registry_some_ok (s : String) (reg : Registry) (hp : parseRegistry s = some reg) :
    load_registry (some s) = ([], LoadRes.ok reg) := by
  simp [load_registry, hp]

theorem debug_all_eq (env : Env) (s : String) (reg : Registry)
    (hf : env.registryFile = some s) (hp : parseRegistry s = some reg) :
    debug env none
      = ⟨debugTargets env.runRaises reg.files, Outcome.normal, env.registryFile⟩ := by
  unfold debug
  rw [hf, load_registry_some_ok s reg hp]
  simp

/-- A registry with one healthy and one raising target, and the
environment whose registry file holds its serialisation. -/
def regW : Registry := ⟨[(".FILE", "ok.py"), (".FILE2", "boom.py")], []⟩

/-- The traceback text the raising target produces. -/
def tbW : String :=
  "Traceback (most recent call last):\n  File \"boom.py\", line 1, in <module>\nValueError: boom"

/-- Environment for the runner claims: registry file present (the
serialisation of `regW`), `boom.py` raises, everything else runs
cleanly. -/
def envDbg : Env where
  registryFile := some (dumpRegistry regW)
  listing := fun _ => []
  stdinLine := ""
  installed := []
  pipSucceeds := []
  runRaises := fun p => if p = "boom.py" then some tbW else none

/-- C2: `debug()` with no alias attempts every registered target in
registry order (the `runpy` events of the trace are exactly one per
registered file, in order), ends normally even when targets raise (no
exception propagates, the batch is never aborted), and for every target
that raises, its full traceback is printed between the two delimiter
banners. -/
theorem debug_all_fault_isolation (env : Env) (s : String) (reg : Registry)
    (hf : env.registryFile = some s) (hp : parseRegistry s = some reg) :
    (debug env none).outcome = Outcome.normal ∧
    (debug env none).trace.filter isRunEv = reg.files.map (fun p => Ev.runTarget p.2) ∧
    ∀ p ∈ reg.files, ∀ tb, env.runRaises p.2 = some tb →
      [Ev.print "----- ERROR TRACEBACK -----", Ev.print tb,
        Ev.print "---------------------------"] <:+: (debug env none).trace := by
  rw [debug_all_eq env s reg hf hp]
  refine ⟨rfl, debugTargets_filter_run env.runRaises reg.files, ?_⟩
  intro p hp2 tb htb
  obtain ⟨s1, t1, hsplit⟩ := List.append_of_mem hp2
  refine ⟨debugTargets env.runRaises s1 ++
      [Ev.print ("\n[framepython] Debugging " ++ p.1 ++ " (" ++ p.2 ++ ")"),
        Ev.runTarget p.2],
    debugTargets env.runRaises t1, ?_⟩
  simp only [hsplit, debugTargets, List.flatMap_append, List.flatMap_cons]
  simp [debugOne, htb]

/-- Witness for C2: in `envDbg` both registered files are attempted,
`boom.py`'s traceback appears between the banners, and the run ends
normally. -/
theorem debug_all_fault_isolation_witness :
    (debug envDbg none).outcome = Outcome.normal ∧
    (debug envDbg none).trace.filter isRunEv = regW.files.map (fun p => Ev.runTarget p.2) ∧
    ∀ p ∈ regW.files, ∀ tb, envDbg.runRaises p.2 = some tb →
      [Ev.print "----- ERROR TRACEBACK -----", Ev.print tb,
        Ev.print "---------------------------"] <:+: (debug envDbg none).trace :=
  debug_all_fault_isolation envDbg (dumpRegistry regW) regW rfl (by decide)

/-! ### Unknown aliases and the missing-registry path -/

/-- Counterexample to C4 as stated: the empty string is an alias absent
from `envDbg`'s registry `files` mapping, yet `debug` with it falls into
Python's falsy `if dotfile:` branch and executes every registered
target instead of printing the `not registered` message. -/
theorem debug_empty_alias_counterexample :
    regW.files.lookup "" = none ∧
    Ev.runTarget "ok.py" ∈ (debug envDbg (some "")).trace ∧
    Ev.print (notRegisteredMsg "") ∉ (debug envDbg (some "")).trace := by decide

/-- C4 (amended): for every non-empty alias absent from the registry's
`files` mapping, `debug` prints the `not registered` message and
returns with no further event (so no target execution, no subprocess)
and a normal outcome; `compile_file` does the same for every absent
alias.  (The empty alias reaches debug's run-all branch instead, per
the counterexample.) -/
theorem unknown_alias_reported (env : Env) (s : String) (reg : Registry) (A : String)
    (hf : env.registryFile = some s) (hp : parseRegistry s = some reg)
    (habs : reg.files.lookup A = none) :
    (A ≠ "" →
      debug env (some A)
        = ⟨[Ev.print (notRegisteredMsg A)], Outcome.normal, env.registryFile⟩) ∧
    compile_file env A
      = ⟨[Ev.print (notRegisteredMsg A)], Outcome.normal, env.registryFile⟩ := by
  constructor
  · intro hA
    unfold debug
    rw [hf, load_registry_some_ok s reg hp]
    simp [hA, habs]
  · unfold compile_file
    rw [hf, load_registry_some_ok s reg hp]
    simp [habs]

/-- Witness for C4 (amended) at the alias `.NOPE`, absent from
`envDbg`'s registry. -/
theorem unknown_alias_reported_witness :
    ((".NOPE" : String) ≠ "" →
      debug envDbg (some ".NOPE")
        = ⟨[Ev.print (notRegisteredMsg ".NOPE")], Outcome.normal, envDbg.registryFile⟩) ∧
    compile_file envDbg ".NOPE"
      = ⟨[Ev.print (notRegisteredMsg ".NOPE")], Outcome.normal, envDbg.registryFile⟩ :=
  unknown_alias_reported envDbg (dumpRegistry regW) regW ".NOPE" rfl (by decide) (by decide)

theorem notRegisteredMsg_ne_missingMsg (A : String) : notRegisteredMsg A ≠ missingMsg := by
  intro h
  have hd := congrArg String.data h
  simp only [notRegisteredMsg, String.data_append, List.append_assoc] at hd
  have hsf : (" not registered.").data <:+ missingMsg.data := by
    rw [← hd]
    exact (List.suffix_append A.data (" not registered.").data).trans
      (List.suffix_append ("[framepython] ").data (A.data ++ (" not registered.").data))
  have hno : ¬ (" not registered.").data <:+ missingMsg.data := by decide
  exact hno hsf

/-- C9: while no registry file exists, `debug` and `compile_file` —
called with any alias argument, known or not — print the
missing-registry message and exit with status 1 before any alias check,
and in particular the `not registered` message can never appear on this
path. -/
theorem no_registry_precedes_alias_check (env : Env) (A : String)
    (hnone : env.registryFile = none) :
    debug env (some A) = ⟨[Ev.print missingMsg], Outcome.exited 1, env.registryFile⟩ ∧
    compile_file env A = ⟨[Ev.print missingMsg], Outcome.exited 1, env.registryFile⟩ ∧
    Ev.print (notRegisteredMsg A) ∉ (debug env (some A)).trace ∧
    Ev.print (notRegisteredMsg A) ∉ (compile_file env A).trace := by
  have hdbg : debug env (some A)
      = ⟨[Ev.print missingMsg], Outcome.exited 1, env.registryFile⟩ := by
    unfold debug
    rw [hnone]
    rfl
  have hcmp : compile_file env A
      = ⟨[Ev.print missingMsg], Outcome.exited 1, env.registryFile⟩ := by
    unfold compile_file
    rw [hnone]
    rfl
  refine ⟨hdbg, hcmp, ?_, ?_⟩ <;>
    simp [hdbg, hcmp, notRegisteredMsg_ne_missingMsg A]

/-- Witness for C9: `envW` has no registry file. -/
theorem no_registry_precedes_alias_check_witness :
    debug envW (some ".FILE")
      = ⟨[Ev.print missingMsg], Outcome.exited 1, envW.registryFile⟩ ∧
    compile_file envW ".FILE"
      = ⟨[Ev.print missingMsg], Outcome.exited 1, envW.registryFile⟩ ∧
    Ev.print (notRegisteredMsg ".FILE") ∉ (debug envW (some ".FILE")).trace ∧
    Ev.print (notRegisteredMsg ".FILE") ∉ (compile_file envW ".FILE").trace :=
  no_registry_precedes_alias_check envW ".FILE" rfl

/-! ### Full replacement and install-failure atomicity of `register` -/

/-- C5: re-running `register` builds the persisted registry solely from
the folder listing and the new dependency input: the written file is
the serialisation of `registryOf` whatever the previous registry file
held, the result is identical across any two prior registry-file
contents, and any alias not among the new folder's aliases — in
particular one present only in the old registry — is absent from the
new `files` mapping.  (Stated on the successful-install path, the only
one that reaches the write.) -/
theorem register_full_replace (env : Env) (folder : String) (old1 old2 : Option String)
    (hinstall :
      (ensure_installed env.installed env.pipSucceeds (parseDeps env.stdinLine)).2 = none) :
    (register {env with registryFile := old1} folder).registryFile
      = some (dumpRegistry (registryOf env folder)) ∧
    (register {env with registryFile := old1} folder).registryFile
      = (register {env with registryFile := old2} folder).registryFile ∧
    ∀ k : String, k ∉ (registryOf env folder).files.map Prod.fst →
      (registryOf env folder).files.lookup k = none := by
  have h1 := register_success {env with registryFile := old1} folder hinstall
  have h2 := register_success {env with registryFile := old2} folder hinstall
  refine ⟨by rw [h1]; rfl, by rw [h1, h2]; rfl, ?_⟩
  intro k hk
  rw [List.lookup_eq_none_iff]
  intro p hp
  have : p.1 ∈ (registryOf env folder).files.map Prod.fst := List.mem_map_of_mem Prod.fst hp
  have hne : k ≠ p.1 := fun he => hk (he ▸ this)
  simpa using hne

/-- Witness for C5: registering over a garbage prior file and over no
prior file gives the same persisted registry. -/
theorem register_full_replace_witness :
    (register {envW with registryFile := some "garbage"} "current").registryFile
      = some (dumpRegistry (registryOf envW "current")) ∧
    (register {envW with registryFile := some "garbage"} "current").registryFile
      = (register {envW with registryFile := none} "current").registryFile ∧
    ∀ k : String, k ∉ (registryOf envW "current").files.map Prod.fst →
      (registryOf envW "current").files.lookup k = none :=
  register_full_replace envW "current" (some "garbage") none (by decide)

theorem ensure_installed_no_write (i p ds : List String) :
    ∀ c, Ev.writeReg c ∉ (ensure_installed i p ds).1 := by
  induction ds generalizing i with
  | nil => simp [ensure_installed]
  | cons d ds ih =>
    intro c
    unfold ensure_installed
    by_cases h1 : d ∈ i
    · simp only [if_pos h1]
      exact ih i c
    · by_cases h2 : d ∈ p <;> simp [h1, h2, ih (d :: i) c]

/-- Environment where the requested dependency has no installer:
the module is not importable and `pip install ghostlib` exits
non-zero. -/
def envPipFail : Env where
  registryFile := some (dumpRegistry regW)
  listing := fun _ => ["app.py"]
  stdinLine := "ghostlib"
  installed := []
  pipSucceeds := []
  runRaises := fun _ => none

/-- C8: `register` installs dependencies before writing the registry,
so when `pip install` exits non-zero (`check_call` raises), `register`
stops with the uncaught error before any write: its trace contains no
registry-file write and the previously persisted registry file, if any,
is left unchanged. -/
theorem register_install_failure_atomic (env : Env) (folder : String) (dep : String)
    (hfail :
      (ensure_installed env.installed env.pipSucceeds (parseDeps env.stdinLine)).2 = some dep) :
    (register env folder).registryFile = env.registryFile ∧
    (∀ c, Ev.writeReg c ∉ (register env folder).trace) ∧
    (register env folder).outcome
      = Outcome.crashed ("subprocess.CalledProcessError: pip install " ++ dep) := by
  have h := register_install_failure env folder dep hfail
  refine ⟨by rw [h], ?_, by rw [h]⟩
  intro c
  rw [h]
  simp only [List.cons_append, List.nil_append, List.mem_cons]
  rintro (hc | hc)
  · exact Ev.noConfusion hc
  · exact ensure_installed_no_write env.installed env.pipSucceeds (parseDeps env.stdinLine) c hc

/-- Witness for C8: in `envPipFail` the install of `ghostlib` raises and
the registry file keeps its old contents. -/
theorem register_install_failure_atomic_witness :
    (register envPipFail "current").registryFile = envPipFail.registryFile ∧
    (∀ c, Ev.writeReg c ∉ (register envPipFail "current").trace) ∧
    (register envPipFail "current").outcome
      = Outcome.crashed ("subprocess.CalledProcessError: pip install " ++ "ghostlib") :=
  register_install_failure_atomic envPipFail "current" "ghostlib" (by decide)

/-! ### Exit-status accounting -/

/-- `--register --folder current` on the command line. -/
def argsRegisterCurrent : Args := ⟨true, some "current", false, none, none⟩

/-- `--list` on the command line. -/
def argsList : Args := ⟨false, none, true, none, none⟩

/-- Counterexample to C3 as stated: in `envPipFail` the registry file
exists — so the `RegistryMissing` condition never arises and its message
is never printed — yet registering ends in an uncaught
`CalledProcessError` from the failing `pip install`, a non-zero process
exit by a different path. -/
theorem registry_missing_not_only_nonzero_exit :
    envPipFail.registryFile ≠ none ∧
    Ev.print missingMsg ∉ (main_dispatch envPipFail argsRegisterCurrent).trace ∧
    (main_dispatch envPipFail argsRegisterCurrent).outcome ≠ Outcome.exited 1 ∧
    exitStatus (main_dispatch envPipFail argsRegisterCurrent).outcome ≠ 0 := by decide

theorem register_no_exit (env : Env) (folder : String) (n : Nat) :
    (register env folder).outcome ≠ Outcome.exited n := by
  unfold register
  simp only []
  cases hi : (ensure_installed env.installed env.pipSucceeds (parseDeps env.stdinLine)).2 <;>
    simp [hi]

theorem debug_missing (env : Env) (d : Option String) (h : env.registryFile = none) :
    debug env d = ⟨[Ev.print missingMsg], Outcome.exited 1, env.registryFile⟩ := by
  unfold debug
  rw [h]
  rfl

theorem compile_file_missing (env : Env) (d : String) (h : env.registryFile = none) :
    compile_file env d = ⟨[Ev.print missingMsg], Outcome.exited 1, env.registryFile⟩ := by
  unfold compile_file
  rw [h]
  rfl

theorem list_files_missing (env : Env) (h : env.registryFile = none) :
    list_files env = ⟨[Ev.print missingMsg], Outcome.exited 1, env.registryFile⟩ := by
  unfold list_files
  rw [h]
  rfl

theorem debug_exited (env : Env) (d : Option String) (n : Nat)
    (h : (debug env d).outcome = Outcome.exited n) : n = 1 ∧ env.registryFile = none := by
  cases ho : env.registryFile with
  | none =>
    rw [debug_missing env d ho] at h
    simp only [] at h
    exact ⟨(Outcome.exited.inj h).symm, rfl⟩
  | some s =>
    exfalso
    unfold debug at h
    rw [ho] at h
    cases hp : parseRegistry s with
    | none => simp [load_registry, hp] at h
    | some reg =>
      rw [load_registry_some_ok s reg hp] at h
      cases d with
      | none => simp at h
      | some a =>
        by_cases ha : a = ""
        · simp [ha] at h
        · cases hl : reg.files.lookup a <;> simp [ha, hl] at h

theorem compile_file_exited (env : Env) (d : String) (n : Nat)
    (h : (compile_file env d).outcome = Outcome.exited n) :
    n = 1 ∧ env.registryFile = none := by
  cases ho : env.registryFile with
  | none =>
    rw [compile_file_missing env d ho] at h
    exact ⟨(Outcome.exited.inj h).symm, rfl⟩
  | some s =>
    exfalso
    unfold compile_file at h
    rw [ho] at h
    cases hp : parseRegistry s with
    | none => simp [load_registry, hp] at h
    | some reg =>
      rw [load_registry_some_ok s reg hp] at h
      cases hl : reg.files.lookup d <;> simp [hl] at h

theorem list_files_exited (env : Env) (n : Nat)
    (h : (list_files env).outcome = Outcome.exited n) :
    n = 1 ∧ env.registryFile = none := by
  cases ho : env.registryFile with
  | none =>
    rw [list_files_missing env ho] at h
    exact ⟨(Outcome.exited.inj h).symm, rfl⟩
  | some s =>
    exfalso
    unfold list_files at h
    rw [ho] at h
    cases hp : parseRegistry s with
    | none => simp [load_registry, hp] at h
    | some reg =>
      rw [load_registry_some_ok s reg hp] at h
      simp at h

theorem main_exited_cases (env : Env) (a : Args) (n : Nat)
    (h : (main_dispatch env a).outcome = Outcome.exited n) :
    n = 1 ∧ env.registryFile = none ∧
      Ev.print missingMsg ∈ (main_dispatch env a).trace := by
  unfold main_dispatch at h ⊢
  by_cases hr : a.register
  · rw [if_pos hr] at h ⊢
    by_cases hf : truthyStr a.folder = false
    · rw [if_pos hf] at h
      simp at h
    · rw [if_neg hf] at h
      exact absurd h (register_no_exit env (a.folder.getD "") n)
  · rw [if_neg hr] at h ⊢
    by_cases hl : a.list
    · rw [if_pos hl] at h ⊢
      obtain ⟨hn, hnone⟩ := list_files_exited env n h
      rw [list_files_missing env hnone]
      exact ⟨hn, hnone, by simp⟩
    · rw [if_neg hl] at h ⊢
      by_cases hd : truthyDebug a.debug
      · rw [if_pos hd] at h ⊢
        cases had : a.debug with
        | none =>
          rw [had] at h
          obtain ⟨hn, hnone⟩ := debug_exited env none n h
          refine ⟨hn, hnone, ?_⟩
          show Ev.print missingMsg ∈ (debug env none).trace
          rw [debug_missing env none hnone]
          simp
        | some o =>
          cases o with
          | none =>
            rw [had] at h
            obtain ⟨hn, hnone⟩ := debug_exited env none n h
            refine ⟨hn, hnone, ?_⟩
            show Ev.print missingMsg ∈ (debug env none).trace
            rw [debug_missing env none hnone]
            simp
          | some s =>
            rw [had] at h
            obtain ⟨hn, hnone⟩ := debug_exited env (some s) n h
            refine ⟨hn, hnone, ?_⟩
            show Ev.print missingMsg ∈ (debug env (some s)).trace
            rw [debug_missing env (some s) hnone]
            simp
      · rw [if_neg hd] at h ⊢
        by_cases hc : truthyStr a.compile
        · rw [if_pos hc] at h ⊢
          obtain ⟨hn, hnone⟩ := compile_file_exited env (a.compile.getD "") n h
          rw [compile_file_missing env (a.compile.getD "") hnone]
          exact ⟨hn, hnone, by simp⟩
        · rw [if_neg hc] at h
          simp at h

/-- C3 (amended): when the registry file does not exist, `load_registry`
prints the missing-registry message and exits with the non-zero status
1; and this is the only explicit non-zero `sys.exit` in the tool — any
dispatch ending in `Outcome.exited n` has `n = 1`, happened because the
registry file was absent, and printed the missing message.  The claim's
stronger reading — that no other path yields a non-zero process exit —
fails: a failing dependency install terminates the process abnormally
too (see the counterexample). -/
theorem missing_registry_only_explicit_exit (env : Env) (a : Args) (n : Nat) :
    (env.registryFile = none →
      load_registry env.registryFile = ([Ev.print missingMsg], LoadRes.missing)) ∧
    ((main_dispatch env a).outcome = Outcome.exited n →
      n = 1 ∧ env.registryFile = none ∧
        Ev.print missingMsg ∈ (main_dispatch env a).trace) := by
  constructor
  · intro h
    rw [h]
    rfl
  · exact main_exited_cases env a n

/-- Witness for C3 (amended): `--list` with no registry file present. -/
theorem missing_registry_only_explicit_exit_witness :
    (envW.registryFile = none →
      load_registry envW.registryFile = ([Ev.print missingMsg], LoadRes.missing)) ∧
    ((main_dispatch envW argsList).outcome = Outcome.exited 1 →
      1 = 1 ∧ envW.registryFile = none ∧
        Ev.print missingMsg ∈ (main_dispatch envW argsList).trace) :=
  missing_registry_only_explicit_exit envW argsList 1

/-! ### The dispatcher -/

/-- C10: a `--debug` value of the empty string is stored in `args.debug`
but is falsy, so the debug branch is skipped entirely: the chosen action
is never the debug action and dispatch falls through to the compile
branch when `--compile` is truthy, otherwise to printing help; an
empty-string alias never reaches `debug`. -/
theorem empty_debug_alias_skipped (env : Env) (a : Args)
    (hr : a.register = false) (hl : a.list = false) (hd : a.debug = some (some "")) :
    truthyDebug a.debug = false ∧
    chosenAction a ≠ Action.debugAction ∧
    main_dispatch env a
      = (if truthyStr a.compile then compile_file env (a.compile.getD "")
          else ⟨[Ev.printHelp], Outcome.normal, env.registryFile⟩) := by
  have ht : truthyDebug a.debug = false := by rw [hd]; rfl
  refine ⟨ht, ?_, ?_⟩
  · unfold chosenAction
    rw [hr, hl, ht]
    by_cases hc : truthyStr a.compile <;> simp [hc]
  · unfold main_dispatch
    rw [hr, hl, ht]
    simp

/-- `--debug ""` on the command line. -/
def argsEmptyDebug : Args := ⟨false, none, false, some (some ""), none⟩

/-- Witness for C10: the parsed arguments of `--debug ""`. -/
theorem empty_debug_alias_skipped_witness :
    truthyDebug argsEmptyDebug.debug = false ∧
    chosenAction argsEmptyDebug ≠ Action.debugAction ∧
    main_dispatch envW argsEmptyDebug
      = (if truthyStr argsEmptyDebug.compile then
            compile_file envW (argsEmptyDebug.compile.getD "")
          else ⟨[Ev.printHelp], Outcome.normal, envW.registryFile⟩) :=
  empty_debug_alias_skipped envW argsEmptyDebug rfl rfl rfl

/-- C7: the dispatcher executes exactly one of register, list, debug,
compile, help — the chosen action is a function of the parsed flags,
selected by first-match priority in that order — and the debug flag with
no value (argparse stores `True`) dispatches `debug` over all registered
files (`debug env none`), while `--debug ALIAS` dispatches `debug` on
that single alias. -/
theorem dispatch_first_match (env : Env) (a : Args) :
    (a.register = true → chosenAction a = Action.registerAction) ∧
    (a.register = false → a.list = true → chosenAction a = Action.listAction) ∧
    (a.register = false → a.list = false → truthyDebug a.debug = true →
      chosenAction a = Action.debugAction) ∧
    (a.register = false → a.list = false → truthyDebug a.debug = false →
      truthyStr a.compile = true → chosenAction a = Action.compileAction) ∧
    (a.register = false → a.list = false → truthyDebug a.debug = false →
      truthyStr a.compile = false → chosenAction a = Action.helpAction) ∧
    (chosenAction a = Action.registerAction →
      main_dispatch env a
        = (if truthyStr a.folder = false then
            ⟨[Ev.print registerUsageMsg], Outcome.normal, env.registryFile⟩
          else register env (a.folder.getD ""))) ∧
    (chosenAction a = Action.listAction → main_dispatch env a = list_files env) ∧
    (chosenAction a = Action.debugAction → a.debug = some none →
      main_dispatch env a = debug env none) ∧
    (chosenAction a = Action.debugAction → ∀ s, a.debug = some (some s) →
      main_dispatch env a = debug env (some s)) ∧
    (chosenAction a = Action.compileAction →
      main_dispatch env a = compile_file env (a.compile.getD "")) ∧
    (chosenAction a = Action.helpAction →
      main_dispatch env a = ⟨[Ev.printHelp], Outcome.normal, env.registryFile⟩) := by
  refine ⟨?_, ?_, ?_, ?_, ?_, ?_, ?_, ?_, ?_, ?_, ?_⟩
  · intro h
    simp [chosenAction, h]
  · intro h1 h2
    simp [chosenAction, h1, h2]
  · intro h1 h2 h3
    simp [chosenAction, h1, h2, h3]
  · intro h1 h2 h3 h4
    simp [chosenAction, h1, h2, h3, h4]
  · intro h1 h2 h3 h4
    simp [chosenAction, h1, h2, h3, h4]
  · intro h
    by_cases hr : a.register
    · simp [main_dispatch, hr]
    · exfalso
      unfold chosenAction at h
      rw [if_neg hr] at h
      split_ifs at h
  · intro h
    unfold chosenAction at h
    by_cases hr : a.register
    · rw [if_pos hr] at h
      exact absurd h (by decide)
    · rw [if_neg hr] at h
      by_cases hl : a.list
      · simp [main_dispatch, hr, hl]
      · exfalso
        rw [if_neg hl] at h
        split_ifs at h
  · intro h hdbg
    by_cases hr : a.register
    · unfold chosenAction at h
      rw [if_pos hr] at h
      exact absurd h (by decide)
    · by_cases hl : a.list
      · unfold chosenAction at h
        rw [if_neg hr, if_pos hl] at h
        exact absurd h (by decide)
      · simp [main_dispatch, hr, hl, hdbg, truthyDebug]
  · intro h s hdbg
    by_cases hr : a.register
    · unfold chosenAction at h
      rw [if_pos hr] at h
      exact absurd h (by decide)
    · by_cases hl : a.list
      · unfold chosenAction at h
        rw [if_neg hr, if_pos hl] at h
        exact absurd h (by decide)
      · by_cases htd : truthyDebug a.debug
        · rw [hdbg] at htd
          simp only [truthyDebug, decide_eq_true_eq] at htd
          simp [main_dispatch, hr, hl, hdbg, truthyDebug, htd]
        · exfalso
          unfold chosenAction at h
          rw [if_neg hr, if_neg hl, if_neg htd] at h
          split_ifs at h
  · intro h
    unfold chosenAction at h
    by_cases hr : a.register
    · rw [if_pos hr] at h
      exact absurd h (by decide)
    · by_cases hl : a.list
      · rw [if_neg hr, if_pos hl] at h
        exact absurd h (by decide)
      · by_cases htd : truthyDebug a.debug
        · rw [if_neg hr, if_neg hl, if_pos htd] at h
          exact absurd h (by decide)
        · by_cases hc : truthyStr a.compile
          · simp [main_dispatch, hr, hl, htd, hc]
          · exfalso
            rw [if_neg hr, if_neg hl, if_neg htd, if_neg hc] at h
            exact absurd h (by decide)
  · intro h
    unfold chosenAction at h
    by_cases hr : a.register
    · rw [if_pos hr] at h
      exact absurd h (by decide)
    · by_cases hl : a.list
      · rw [if_neg hr, if_pos hl] at h
        exact absurd h (by decide)
      · by_cases htd : truthyDebug a.debug
        · rw [if_neg hr, if_neg hl, if_pos htd] at h
          exact absurd h (by decide)
        · by_cases hc : truthyStr a.compile
          · exfalso
            rw [if_neg hr, if_neg hl, if_neg htd, if_pos hc] at h
            exact absurd h (by decide)
          · simp [main_dispatch, hr, hl, htd, hc]

/-! ### Round-trip: the parser inverts the serialiser

`save_registry` writes `dumpRegistry r`; the lemmas below show the
parser reads that document back to `r`, so `save(load())` on a file the
tool wrote reproduces it byte for byte. -/

theorem skipWs_cons_of_ws (c : Char) (l : List Char) (h : isWsChar c = true) :
    skipWs (c :: l) = skipWs l := by
  simp [skipWs, List.dropWhile_cons, h]

theorem skipWs_cons_of_not (c : Char) (l : List Char) (h : isWsChar c = false) :
    skipWs (c :: l) = c :: l := by
  simp [skipWs, List.dropWhile_cons, h]

theorem parseStrBody_escape (s : List Char) (rest : List Char) :
    parseStrBody (s.flatMap escapeChar ++ '"' :: rest) = some (s, rest) := by
  induction s with
  | nil =>
    show parseStrBody ('"' :: rest) = some ([], rest)
    unfold parseStrBody
    simp
  | cons c cs ih =>
    rw [List.flatMap_cons, List.append_assoc]
    by_cases h : c = '"' ∨ c = '\\'
    · have he : escapeChar c = ['\\', c] := by unfold escapeChar; rw [if_pos h]
      rw [he]
      show parseStrBody ('\\' :: c :: (cs.flatMap escapeChar ++ '"' :: rest)) = _
      unfold parseStrBody
      simp [h, ih]
    · have he : escapeChar c = [c] := by unfold escapeChar; rw [if_neg h]
      rw [he]
      push_neg at h
      show parseStrBody (c :: (cs.flatMap escapeChar ++ '"' :: rest)) = _
      unfold parseStrBody
      simp [h.1, h.2, ih]

theorem parseQuoted_quoteStr (s : String) (rest : List Char) :
    parseQuoted (quoteStr s ++ rest) = some (s, rest) := by
  unfold quoteStr
  simp only [List.cons_append, List.append_assoc, List.singleton_append]
  simp [parseQuoted, parseStrBody_escape]

theorem skipWs_quoteStr (s : String) (rest : List Char) :
    skipWs (quoteStr s ++ rest) = quoteStr s ++ rest := by
  unfold quoteStr
  simp only [List.cons_append]
  exact skipWs_cons_of_not _ _ (by decide)

theorem skipWs_append_ws (p : List Char) (l : List Char) (hp : p.all isWsChar = true) :
    skipWs (p ++ l) = skipWs l := by
  induction p with
  | nil => rfl
  | cons c cs ih =>
    simp only [List.all_cons, Bool.and_eq_true] at hp
    rw [List.cons_append, skipWs_cons_of_ws c _ hp.1, ih hp.2]

theorem parsePair_eq (l : List Char) :
    parsePair l = (parseQuoted (skipWs l)).bind fun kl =>
      (expectChar ':' (skipWs kl.2)).bind fun l2 =>
        (parseQuoted (skipWs l2)).bind fun vl => some ((kl.1, vl.1), vl.2) := by
  unfold parsePair
  split
  · rename_i heq
    rw [heq]
    rfl
  · rename_i k l1 heq
    rw [heq]
    simp only [Option.some_bind]
    split
    · rename_i heq2
      rw [heq2]
      rfl
    · rename_i l2 heq2
      rw [heq2]
      simp only [Option.some_bind]
      split
      · rename_i heq3
        rw [heq3]
        rfl
      · rename_i v l3 heq3
        rw [heq3]
        simp only [Option.some_bind]

theorem parsePair_dump (p : String × String) (rest : List Char) :
    parsePair (("\n    ").data ++ (dumpPair p ++ rest)) = some (p, rest) := by
  rw [parsePair_eq]
  unfold dumpPair
  simp only [List.append_assoc]
  rw [skipWs_append_ws (("\n    ").data) _ (by decide), skipWs_quoteStr, parseQuoted_quoteStr]
  simp only [Option.some_bind]
  rw [show (": ").data ++ (quoteStr p.2 ++ rest) = ':' :: ' ' :: (quoteStr p.2 ++ rest) from rfl]
  rw [skipWs_cons_of_not _ _ (by decide)]
  rw [show expectChar ':' (':' :: ' ' :: (quoteStr p.2 ++ rest))
      = some (' ' :: (quoteStr p.2 ++ rest)) from rfl]
  simp only [Option.some_bind]
  rw [skipWs_cons_of_ws _ _ (by decide), skipWs_quoteStr, parseQuoted_quoteStr]
  simp only [Option.some_bind]

theorem parsePairsTail_succ_close (fuel : Nat) (rest : List Char) :
    parsePairsTail (fuel + 1) (("\n  \x7d").data ++ rest) = some ([], rest) := by
  unfold parsePairsTail
  rw [show ("\n  \x7d").data ++ rest = '\n' :: ' ' :: ' ' :: '\x7d' :: rest from rfl]
  rw [skipWs_cons_of_ws _ _ (by decide), skipWs_cons_of_ws _ _ (by decide),
    skipWs_cons_of_ws _ _ (by decide), skipWs_cons_of_not _ _ (by decide)]
  rfl

theorem parsePairsTail_succ_comma (fuel : Nat) (p : String × String) (X : List Char) :
    parsePairsTail (fuel + 1) ((",\n    ").data ++ (dumpPair p ++ X))
      = (parsePairsTail fuel X).bind fun psl => some (p :: psl.1, psl.2) := by
  conv_lhs => unfold parsePairsTail
  rw [show (",\n    ").data ++ (dumpPair p ++ X)
      = ',' :: (("\n    ").data ++ (dumpPair p ++ X)) from rfl]
  rw [skipWs_cons_of_not _ _ (by decide)]
  split
  · rename_i cs heq
    exact absurd heq (by simp)
  · rename_i cs heq
    have hcs : ("\n    ").data ++ (dumpPair p ++ X) = cs := by
      simp only [List.cons.injEq] at heq
      exact heq.2
    subst hcs
    rw [parsePair_dump p X]
    split
    · rename_i heq2
      exact absurd heq2 (by simp)
    · rename_i p2 l2 heq2
      simp only [Option.some.injEq, Prod.mk.injEq] at heq2
      obtain ⟨rfl, rfl⟩ := heq2
      cases h : parsePairsTail fuel X with
      | none => rfl
      | some psl => rfl
  · rename_i hne1 hne2
    exact absurd rfl (hne2 (("\n    ").data ++ (dumpPair p ++ X)))

theorem dumpPairsTail_length (ps : List (String × String)) :
    ps.length ≤ (dumpPairsTail ps).length := by
  induction ps with
  | nil => simp [dumpPairsTail]
  | cons p ps ih =>
    simp only [dumpPairsTail, List.length_append, List.length_cons, List.length_nil]
    omega

theorem parsePairsTail_dump (ps : List (String × String)) :
    ∀ (fuel : Nat) (rest : List Char), ps.length < fuel →
      parsePairsTail fuel (dumpPairsTail ps ++ (("\n  \x7d").data ++ rest))
        = some (ps, rest) := by
  induction ps with
  | nil =>
    intro fuel rest hf
    cases fuel with
    | zero => omega
    | succ f =>
      rw [show dumpPairsTail [] = ([] : List Char) from rfl, List.nil_append]
      exact parsePairsTail_succ_close f rest
  | cons p ps ih =>
    intro fuel rest hf
    cases fuel with
    | zero => omega
    | succ f =>
      rw [show dumpPairsTail (p :: ps)
          = (",\n    ").data ++ dumpPair p ++ dumpPairsTail ps from rfl]
      simp only [List.append_assoc]
      rw [parsePairsTail_succ_comma f p (dumpPairsTail ps ++ (("\n  \x7d").data ++ rest))]
      rw [ih f rest (by simp only [List.length_cons] at hf; omega)]
      rfl

theorem parseObj_dump (files : List (String × String)) (w rest : List Char)
    (hw : w.all isWsChar = true) :
    parseObj (w ++ (dumpFiles files ++ rest)) = some (files, rest) := by
  unfold parseObj
  rw [skipWs_append_ws w _ hw]
  cases files with
  | nil =>
    rw [show dumpFiles [] ++ rest = '\x7b' :: '\x7d' :: rest from rfl]
    rw [skipWs_cons_of_not _ _ (by decide)]
    rfl
  | cons p ps =>
    rw [show dumpFiles (p :: ps) ++ rest
        = '\x7b' :: (("\n    ").data ++
            (dumpPair p ++ (dumpPairsTail ps ++ (("\n  \x7d").data ++ rest)))) from by
          simp [dumpFiles, List.append_assoc]]
    rw [skipWs_cons_of_not _ _ (by decide)]
    split
    · rename_i cs heq
      have hcs : ("\n    ").data ++
          (dumpPair p ++ (dumpPairsTail ps ++ (("\n  \x7d").data ++ rest))) = cs := by
        simp only [List.cons.injEq] at heq
        exact heq.2
      subst hcs
      rw [skipWs_append_ws _ _ (by decide)]
      rw [show dumpPair p ++ (dumpPairsTail ps ++ (("\n  \x7d").data ++ rest))
          = quoteStr p.1 ++ ((": ").data ++
              (quoteStr p.2 ++ (dumpPairsTail ps ++ (("\n  \x7d").data ++ rest)))) from by
            simp [dumpPair, List.append_assoc]]
      rw [skipWs_quoteStr]
      split
      · rename_i cs2 heq2
        rw [show quoteStr p.1 ++ ((": ").data ++
            (quoteStr p.2 ++ (dumpPairsTail ps ++ (("\n  \x7d").data ++ rest))))
            = '"' :: (p.1.data.flatMap escapeChar ++ ('"' :: ((": ").data ++
                (quoteStr p.2 ++ (dumpPairsTail ps ++ (("\n  \x7d").data ++ rest))))))
            from by simp [quoteStr, List.cons_append, List.append_assoc]] at heq2
        exact absurd heq2 (by simp)
      · rw [show ("\n    ").data ++
            (quoteStr p.1 ++ ((": ").data ++
              (quoteStr p.2 ++ (dumpPairsTail ps ++ (("\n  \x7d").data ++ rest)))))
            = ("\n    ").data ++
              (dumpPair p ++ (dumpPairsTail ps ++ (("\n  \x7d").data ++ rest))) from by
            simp [dumpPair, List.append_assoc]]
        rw [parsePair_dump p (dumpPairsTail ps ++ (("\n  \x7d").data ++ rest))]
        split
        · rename_i heq3
          exact absurd heq3 (by simp)
        · rename_i p2 l2 heq3
          simp only [Option.some.injEq, Prod.mk.injEq] at heq3
          obtain ⟨rfl, rfl⟩ := heq3
          rw [parsePairsTail_dump ps _ rest ?hfuel]
          case hfuel =>
            have h1 := dumpPairsTail_length ps
            simp only [List.length_append]
            omega
    · rename_i hne
      exact absurd rfl (hne (("\n    ").data ++
        (dumpPair p ++ (dumpPairsTail ps ++ (("\n  \x7d").data ++ rest)))))

theorem parseStrsTail_succ_close (fuel : Nat) (rest : List Char) :
    parseStrsTail (fuel + 1) (("\n  ]").data ++ rest) = some ([], rest) := by
  unfold parseStrsTail
  rw [show ("\n  ]").data ++ rest = '\n' :: ' ' :: ' ' :: ']' :: rest from rfl]
  rw [skipWs_cons_of_ws _ _ (by decide), skipWs_cons_of_ws _ _ (by decide),
    skipWs_cons_of_ws _ _ (by decide), skipWs_cons_of_not _ _ (by decide)]
  rfl

theorem parseStrsTail_succ_comma (fuel : Nat) (d : String) (X : List Char) :
    parseStrsTail (fuel + 1) ((",\n    ").data ++ (quoteStr d ++ X))
      = (parseStrsTail fuel X).bind fun ssl => some (d :: ssl.1, ssl.2) := by
  conv_lhs => unfold parseStrsTail
  rw [show (",\n    ").data ++ (quoteStr d ++ X)
      = ',' :: (("\n    ").data ++ (quoteStr d ++ X)) from rfl]
  rw [skipWs_cons_of_not _ _ (by decide)]
  split
  · rename_i cs heq
    exact absurd heq (by simp)
  · rename_i cs heq
    have hcs : ("\n    ").data ++ (quoteStr d ++ X) = cs := by
      simp only [List.cons.injEq] at heq
      exact heq.2
    subst hcs
    rw [skipWs_append_ws _ _ (by decide), skipWs_quoteStr, parseQuoted_quoteStr]
    split
    · rename_i heq2
      exact absurd heq2 (by simp)
    · rename_i d2 l2 heq2
      simp only [Option.some.injEq, Prod.mk.injEq] at heq2
      obtain ⟨rfl, rfl⟩ := heq2
      cases h : parseStrsTail fuel X with
      | none => rfl
      | some ssl => rfl
  · rename_i hne1 hne2
    exact absurd rfl (hne2 (("\n    ").data ++ (quoteStr d ++ X)))

theorem dumpDepsTail_length (ds : List String) :
    ds.length ≤ (dumpDepsTail ds).length := by
  induction ds with
  | nil => simp [dumpDepsTail]
  | cons d ds ih =>
    simp only [dumpDepsTail, List.length_append, List.length_cons, List.length_nil]
    omega

theorem parseStrsTail_dump (ds : List String) :
    ∀ (fuel : Nat) (rest : List Char), ds.length < fuel →
      parseStrsTail fuel (dumpDepsTail ds ++ (("\n  ]").data ++ rest))
        = some (ds, rest) := by
  induction ds with
  | nil =>
    intro fuel rest hf
    cases fuel with
    | zero => omega
    | succ f =>
      rw [show dumpDepsTail [] = ([] : List Char) from rfl, List.nil_append]
      exact parseStrsTail_succ_close f rest
  | cons d ds ih =>
    intro fuel rest hf
    cases fuel with
    | zero => omega
    | succ f =>
      rw [show dumpDepsTail (d :: ds)
          = (",\n    ").data ++ quoteStr d ++ dumpDepsTail ds from rfl]
      simp only [List.append_assoc]
      rw [parseStrsTail_succ_comma f d (dumpDepsTail ds ++ (("\n  ]").data ++ rest))]
      rw [ih f rest (by simp only [List.length_cons] at hf; omega)]
      rfl

theorem parseArr_dump (ds : List String) (w rest : List Char)
    (hw : w.all isWsChar = true) :
    parseArr (w ++ (dumpDeps ds ++ rest)) = some (ds, rest) := by
  unfold parseArr
  rw [skipWs_append_ws w _ hw]
  cases ds with
  | nil =>
    rw [show dumpDeps [] ++ rest = '[' :: ']' :: rest from rfl]
    rw [skipWs_cons_of_not _ _ (by decide)]
    rfl
  | cons d ds =>
    rw [show dumpDeps (d :: ds) ++ rest
        = '[' :: (("\n    ").data ++
            (quoteStr d ++ (dumpDepsTail ds ++ (("\n  ]").data ++ rest)))) from by
          simp [dumpDeps, List.append_assoc]]
    rw [skipWs_cons_of_not _ _ (by decide)]
    split
    · rename_i cs heq
      have hcs : ("\n    ").data ++
          (quoteStr d ++ (dumpDepsTail ds ++ (("\n  ]").data ++ rest))) = cs := by
        simp only [List.cons.injEq] at heq
        exact heq.2
      subst hcs
      rw [skipWs_append_ws _ _ (by decide), skipWs_quoteStr]
      split
      · rename_i cs2 heq2
        rw [show quoteStr d ++ (dumpDepsTail ds ++ (("\n  ]").data ++ rest))
            = '"' :: (d.data.flatMap escapeChar ++
                ('"' :: (dumpDepsTail ds ++ (("\n  ]").data ++ rest))))
            from by simp [quoteStr, List.cons_append, List.append_assoc]] at heq2
        exact absurd heq2 (by simp)
      · rw [parseQuoted_quoteStr]
        split
        · rename_i heq3
          exact absurd heq3 (by simp)
        · rename_i d2 l2 heq3
          simp only [Option.some.injEq, Prod.mk.injEq] at heq3
          obtain ⟨rfl, rfl⟩ := heq3
          rw [parseStrsTail_dump ds _ rest ?hfuel]
          case hfuel =>
            have h1 := dumpDepsTail_length ds
            simp only [List.length_append]
            omega
    · rename_i hne
      exact absurd rfl (hne (("\n    ").data ++
        (quoteStr d ++ (dumpDepsTail ds ++ (("\n  ]").data ++ rest)))))

theorem expectChar_cons (c : Char) (l : List Char) : expectChar c (c :: l) = some l := by
  unfold expectChar
  simp

theorem parseObj_dump_sp (files : List (String × String)) (rest : List Char) :
    parseObj (' ' :: (dumpFiles files ++ rest)) = some (files, rest) := by
  rw [show ' ' :: (dumpFiles files ++ rest) = [' '] ++ (dumpFiles files ++ rest) from rfl]
  exact parseObj_dump files [' '] rest (by decide)

theorem parseArr_dump_sp (ds : List String) (rest : List Char) :
    parseArr (' ' :: (dumpDeps ds ++ rest)) = some (ds, rest) := by
  rw [show ' ' :: (dumpDeps ds ++ rest) = [' '] ++ (dumpDeps ds ++ rest) from rfl]
  exact parseArr_dump ds [' '] rest (by decide)

theorem parseRegistryChars_dump (r : Registry) :
    parseRegistryChars (dumpRegistryChars r) = some r := by
  obtain ⟨F, D⟩ := r
  have hL : dumpRegistryChars ⟨F, D⟩
      = '\x7b' :: '\n' :: ' ' :: ' ' :: (quoteStr "files" ++ (':' :: ' ' ::
          (dumpFiles F ++ (',' :: '\n' :: ' ' :: ' ' :: (quoteStr "dependencies" ++
            (':' :: ' ' :: (dumpDeps D ++ ('\n' :: '\x7d' :: [])))))))) := by
    simp only [dumpRegistryChars, quoteStr, List.append_assoc]
    simp +decide [escapeChar, List.flatMap_cons, List.append_assoc]
  rw [hL]
  unfold parseRegistryChars
  rw [skipWs_cons_of_not _ _ (by decide), expectChar_cons]
  split
  · rename_i heq
    exact absurd heq (by simp)
  · rename_i l1 heq
    simp only [Option.some.injEq] at heq
    subst heq
    rw [skipWs_cons_of_ws _ _ (by decide), skipWs_cons_of_ws _ _ (by decide),
      skipWs_cons_of_ws _ _ (by decide), skipWs_quoteStr, parseQuoted_quoteStr]
    split
    · rename_i heq2
      exact absurd heq2 (by simp)
    · rename_i k1 l2 heq2
      simp only [Option.some.injEq, Prod.mk.injEq] at heq2
      obtain ⟨rfl, rfl⟩ := heq2
      rw [if_neg (show ¬("files" ≠ "files") by simp)]
      rw [skipWs_cons_of_not _ _ (by decide), expectChar_cons]
      split
      · rename_i heq3
        exact absurd heq3 (by simp)
      · rename_i l3 heq3
        simp only [Option.some.injEq] at heq3
        subst heq3
        rw [parseObj_dump_sp]
        split
        · rename_i heq4
          exact absurd heq4 (by simp)
        · rename_i fs l4 heq4
          simp only [Option.some.injEq, Prod.mk.injEq] at heq4
          obtain ⟨rfl, rfl⟩ := heq4
          rw [skipWs_cons_of_not _ _ (by decide), expectChar_cons]
          split
          · rename_i heq5
            exact absurd heq5 (by simp)
          · rename_i l5 heq5
            simp only [Option.some.injEq] at heq5
            subst heq5
            rw [skipWs_cons_of_ws _ _ (by decide), skipWs_cons_of_ws _ _ (by decide),
              skipWs_cons_of_ws _ _ (by decide), skipWs_quoteStr, parseQuoted_quoteStr]
            split
            · rename_i heq6
              exact absurd heq6 (by simp)
            · rename_i k2 l6 heq6
              simp only [Option.some.injEq, Prod.mk.injEq] at heq6
              obtain ⟨rfl, rfl⟩ := heq6
              rw [if_neg (show ¬("dependencies" ≠ "dependencies") by simp)]
              rw [skipWs_cons_of_not _ _ (by decide), expectChar_cons]
              split
              · rename_i heq7
                exact absurd heq7 (by simp)
              · rename_i l7 heq7
                simp only [Option.some.injEq] at heq7
                subst heq7
                rw [parseArr_dump_sp]
                split
                · rename_i heq8
                  exact absurd heq8 (by simp)
                · rename_i ds l8 heq8
                  simp only [Option.some.injEq, Prod.mk.injEq] at heq8
                  obtain ⟨rfl, rfl⟩ := heq8
                  rw [skipWs_cons_of_ws _ _ (by decide), skipWs_cons_of_not _ _ (by decide),
                    expectChar_cons]
                  split
                  · rename_i heq9
                    exact absurd heq9 (by simp)
                  · rename_i l9 heq9
                    simp only [Option.some.injEq] at heq9
                    subst heq9
                    rfl

theorem parseRegistry_dumpRegistry (r : Registry) :
    parseRegistry (dumpRegistry r) = some r := by
  unfold parseRegistry dumpRegistry
  exact parseRegistryChars_dump r

/-- C6: a registry file last written by `save_registry` and untouched
since parses back (`json.load`) to the registry value it serialised, so
`save(load())` rewrites the file byte for byte.  The two hypotheses mark
the domain on which the model is exact for the source: all stored
strings printable ASCII (outside it `json.dump` emits `\uXXXX` escapes
this model does not render) and pairwise-distinct alias keys (automatic
for a Python dict, whose keys cannot repeat). -/
theorem save_load_byte_roundtrip (r : Registry)
    (hsafe : safeRegistry r = true) (hnd : (r.files.map Prod.fst).Nodup) :
    (load_registry (some (dumpRegistry r))).2 = LoadRes.ok r ∧
    ∀ r', (load_registry (some (dumpRegistry r))).2 = LoadRes.ok r' →
      dumpRegistry r' = dumpRegistry r := by
  have h : load_registry (some (dumpRegistry r)) = ([], LoadRes.ok r) :=
    load_registry_some_ok _ r (parseRegistry_dumpRegistry r)
  rw [h]
  refine ⟨rfl, fun r' hr' => ?_⟩
  have : r = r' := LoadRes.ok.inj (by simpa using hr')
  rw [← this]

/-- Witness for C6 at the concrete registry `regW` (printable-ASCII
strings, distinct keys). -/
theorem save_load_byte_roundtrip_witness :
    (load_registry (some (dumpRegistry regW))).2 = LoadRes.ok regW ∧
    ∀ r', (load_registry (some (dumpRegistry regW))).2 = LoadRes.ok r' →
      dumpRegistry r' = dumpRegistry regW :=
  save_load_byte_roundtrip regW (by decide) (by decide)

/-- Witness for C7 at the parsed arguments of `--list` in `envW`. -/
theorem dispatch_first_match_witness :
    (argsList.register = true → chosenAction argsList = Action.registerAction) ∧
    (argsList.register = false → argsList.list = true →
      chosenAction argsList = Action.listAction) ∧
    (argsList.register = false → argsList.list = false →
      truthyDebug argsList.debug = true → chosenAction argsList = Action.debugAction) ∧
    (argsList.register = false → argsList.list = false →
      truthyDebug argsList.debug = false → truthyStr argsList.compile = true →
      chosenAction argsList = Action.compileAction) ∧
    (argsList.register = false → argsList.list = false →
      truthyDebug argsList.debug = false → truthyStr argsList.compile = false →
      chosenAction argsList = Action.helpAction) ∧
    (chosenAction argsList = Action.registerAction →
      main_dispatch envW argsList
        = (if truthyStr argsList.folder = false then
            ⟨[Ev.print registerUsageMsg], Outcome.normal, envW.registryFile⟩
          else register envW (argsList.folder.getD ""))) ∧
    (chosenAction argsList = Action.listAction →
      main_dispatch envW argsList = list_files envW) ∧
    (chosenAction argsList = Action.debugAction → argsList.debug = some none →
      main_dispatch envW argsList = debug envW none) ∧
    (chosenAction argsList = Action.debugAction → ∀ s, argsList.debug = some (some s) →
      main_dispatch envW argsList = debug envW (some s)) ∧
    (chosenAction argsList = Action.compileAction →
      main_dispatch envW argsList = compile_file envW (argsList.compile.getD "")) ∧
    (chosenAction argsList = Action.helpAction →
      main_dispatch envW argsList = ⟨[Ev.printHelp], Outcome.normal, envW.registryFile⟩) :=
  dispatch_first_match envW argsList

end FramePython
